import Mathlib

/-!
Verification development for `fix_format_strings.py`, a maintenance script
that parses `go vet` "non-constant format string" diagnostics and applies
ordered regex rewrites to the offending source lines.

The embedding models strings as `List Char`.  The script's regexes use only
literal runs, greedy character-class quantifiers (`+`, `*`) and capture
groups, so they are embedded as sequences of `RItem` matched by a
backtracking engine (`matchItems`) that mirrors Python's leftmost-match,
greedy-with-backtracking semantics.  `\d` and `\s` are modelled as their
ASCII subsets.  Python's negative list indexing (`lines[line_num - 1]` when
`line_num = 0`) is modelled by `pyGet`/`pySet` over `Int` indices, and an
out-of-range index access (an `IndexError` swallowed by the script's
`except` clause) is modelled by `pyGet` returning `none`.
-/

namespace FixFormatStrings

/-- Character class `[^:]` of the diagnostic-line regex. -/
def notColon : Char → Bool := fun c => !(c == ':')

/-- Negation of the newline character; `.` in a Python regex matches any
character except `\n`. -/
def notNl : Char → Bool := fun c => !(c == '\n')

/-- ASCII `\d`. -/
def pyDigit : Char → Bool := fun c => c.isDigit

/-- ASCII `\s` (Python whitespace class). -/
def pySpace : Char → Bool := fun c =>
  c == ' ' || c == '\t' || c == '\n' || c == '\r' || c == '\x0b' || c == '\x0c'

/-- Character class `[^,]` used for the first capture group of the
`fmt.Fprintf` rules. -/
def nonComma : Char → Bool := fun c => !(c == ',')

/-- Character class `[^,)]` used for bare-argument capture groups. -/
def nonCommaParen : Char → Bool := fun c => !(c == ',') && !(c == ')')

/-- Character class `[^)]` used for the `fmt.Sprintf` argument group. -/
def nonParen : Char → Bool := fun c => !(c == ')')

/-- The literal text of the diagnostic between the column number and the
call-site description. -/
def diagLit : List Char := ": non-constant format string in call to ".toList

/-- The substring the script greps for before attempting the regex match. -/
def needle : List Char := "non-constant format string".toList

/-- Decimal value of a digit string, as computed by Python's `int`. -/
def natOfDigits (ds : List Char) : Nat :=
  ds.foldl (fun a c => a * 10 + (c.toNat - '0'.toNat)) 0

/-- Parse of one stderr line against
`([^:]+):(\d+):\d+: non-constant format string in call to (.+)` via
`re.match` (anchored at the start, prefix match).  Each greedy step of that
regex is forced — a class run cannot cross its terminating literal — so the
match is computed directly with `takeWhile`/`dropWhile`.  The function is
total: parsing never raises. -/
def parseDiagLine (l : List Char) : Option (List Char × Nat × List Char) :=
  if l.takeWhile notColon = [] then none else
  match l.dropWhile notColon with
  | [] => none
  | _ :: r2 =>
    -- the head of `dropWhile notColon` can only be the literal `:`
    if r2.takeWhile pyDigit = [] then none else
    match r2.dropWhile pyDigit with
    | [] => none
    | c :: r3 =>
      if c = ':' then
        if r3.takeWhile pyDigit = [] then none else
        if diagLit.isPrefixOf (r3.dropWhile pyDigit) then
          if ((r3.dropWhile pyDigit).drop diagLit.length).takeWhile notNl = [] then none
          else
            some (l.takeWhile notColon, natOfDigits (r2.takeWhile pyDigit),
              ((r3.dropWhile pyDigit).drop diagLit.length).takeWhile notNl)
        else none
      else none

/-- A parsed diagnostic record: `{'file': …, 'line': …, 'function': …}`. -/
structure DiagRecord where
  file : List Char
  line : Nat
  function : List Char
deriving DecidableEq

/-- Build a record from the three captured groups. -/
def recOf (t : List Char × Nat × List Char) : DiagRecord :=
  ⟨t.1, t.2.1, t.2.2⟩

/-- Python's `text.split('\n')`. -/
def splitOnNl : List Char → List (List Char)
  | [] => [[]]
  | c :: r =>
    if c = '\n' then [] :: splitOnNl r
    else
      match splitOnNl r with
      | [] => [[c]]
      | h :: t => (c :: h) :: t

/-- Python's `pat in s` substring test. -/
def containsSub (pat l : List Char) : Bool :=
  (List.range (l.length + 1)).any (fun i => pat.isPrefixOf (l.drop i))

/-- The parsing loop of `get_format_string_errors`, applied to the captured
stderr text: split into lines, keep lines containing the needle, parse each
against the diagnostic regex, and emit one record per match. -/
def collectFromStderr (stderr : List Char) : List DiagRecord :=
  (splitOnNl stderr).filterMap (fun l =>
    if containsSub needle l then (parseDiagLine l).map recOf else none)

/-- The whole of `get_format_string_errors`: the subprocess result is
`none` when `subprocess.run` (or reading its output) raised — the `except`
branch prints the error and returns the empty list. -/
def get_format_string_errors (vetStderr : Option (List Char)) : List DiagRecord :=
  match vetStderr with
  | none => []
  | some stderr => collectFromStderr stderr

/-! ### The regex engine for the four rewrite rules -/

/-- One item of a rewrite-rule pattern: a literal run, a greedy capturing
class repetition `(cls+)`, or a greedy non-capturing class star `cls*`. -/
inductive RItem where
  | lit (s : List Char)
  | group (p : Char → Bool)
  | starNC (p : Char → Bool)

/-- Try `f` on each count from `hi` down to `lo`, returning the first
success — the backtracking order of a greedy quantifier. -/
def pickGreedyAux (f : Nat → Option α) (lo : Nat) : Nat → Option α
  | 0 => f lo
  | k + 1 =>
    match f (lo + (k + 1)) with
    | some r => some r
    | none => pickGreedyAux f lo k

/-- Greedy choice of a repetition count in `[lo, hi]`, longest first. -/
def pickGreedy (lo hi : Nat) (f : Nat → Option α) : Option α :=
  if lo ≤ hi then pickGreedyAux f lo (hi - lo) else none

/-- Match a pattern at the start of `s`, returning the captures and the
suffix after the match.  Greedy quantifiers backtrack from their maximal
run, exactly as Python's engine does on these patterns. -/
def matchItems : List RItem → List Char → Option (List (List Char) × List Char)
  | [], s => some ([], s)
  | .lit t :: rest, s =>
    if t.isPrefixOf s then matchItems rest (s.drop t.length) else none
  | .group p :: rest, s =>
    pickGreedy 1 (s.takeWhile p).length (fun n =>
      (matchItems rest (s.drop n)).map (fun pr => (s.take n :: pr.1, pr.2)))
  | .starNC p :: rest, s =>
    pickGreedy 0 (s.takeWhile p).length (fun n => matchItems rest (s.drop n))

/-- Python's `re.search`: try the pattern at each position left to right;
return the text before the match, the captures, and the suffix after. -/
def searchMatch (items : List RItem) (s : List Char) :
    Option (List Char × List (List Char) × List Char) :=
  match matchItems items s with
  | some (caps, suf) => some ([], caps, suf)
  | none =>
    match s with
    | [] => none
    | c :: s' => (searchMatch items s').map (fun pr => (c :: pr.1, pr.2))

/-- Python's `re.sub`: replace every non-overlapping match left to right.
The fuel bounds the number of replacements; every pattern of the script
starts with a nonempty literal, so `s.length + 1` fuel is never exhausted. -/
def subAllFuel (items : List RItem) (repl : List (List Char) → List Char) :
    Nat → List Char → List Char
  | 0, s => s
  | fuel + 1, s =>
    match searchMatch items s with
    | none => s
    | some (pre, caps, suf) => pre ++ repl caps ++ subAllFuel items repl fuel suf

/-- `re.sub pattern repl s`. -/
def subAll (items : List RItem) (repl : List (List Char) → List Char)
    (s : List Char) : List Char :=
  subAllFuel items repl (s.length + 1) s

/-- Pattern 1: `fmt\.Fprintf\(([^,]+),\s*([^,\)]+)\)`. -/
def P1 : List RItem :=
  [.lit "fmt.Fprintf(".toList, .group nonComma, .lit [','], .starNC pySpace,
   .group nonCommaParen, .lit [')']]

/-- Replacement 1: `fmt.Fprintf(\1, "%s", \2)`. -/
def R1 : List (List Char) → List Char
  | [g1, g2] => "fmt.Fprintf(".toList ++ g1 ++ ", \"%s\", ".toList ++ g2 ++ [')']
  | _ => []

/-- Pattern 2: `fmt\.Errorf\(([^,\)]+)\)`. -/
def P2 : List RItem :=
  [.lit "fmt.Errorf(".toList, .group nonCommaParen, .lit [')']]

/-- Replacement 2: `fmt.Errorf("%s", \1)`. -/
def R2 : List (List Char) → List Char
  | [g1] => "fmt.Errorf(\"%s\", ".toList ++ g1 ++ [')']
  | _ => []

/-- Pattern 3: `fmt\.Fprintf\(([^,]+),\s*fmt\.Sprintf\(([^)]+)\)\)`. -/
def P3 : List RItem :=
  [.lit "fmt.Fprintf(".toList, .group nonComma, .lit [','], .starNC pySpace,
   .lit "fmt.Sprintf(".toList, .group nonParen, .lit "))".toList]

/-- Replacement 3: `fmt.Fprintf(\1, \2)`. -/
def R3 : List (List Char) → List Char
  | [g1, g2] => "fmt.Fprintf(".toList ++ g1 ++ ", ".toList ++ g2 ++ [')']
  | _ => []

/-- Pattern 4: `util\.UsageErrorf\(([^,\)]+)\)`. -/
def P4 : List RItem :=
  [.lit "util.UsageErrorf(".toList, .group nonCommaParen, .lit [')']]

/-- Replacement 4: `util.UsageErrorf("%s", \1)`. -/
def R4 : List (List Char) → List Char
  | [g1] => "util.UsageErrorf(\"%s\", ".toList ++ g1 ++ [')']
  | _ => []

/-- A rewrite rule: a pattern and its replacement template. -/
def Rule := List RItem × (List (List Char) → List Char)

/-- The ordered rule list of `fix_format_string_in_file`. -/
def rulesList : List Rule := [(P1, R1), (P2, R2), (P3, R3), (P4, R4)]

/-- The `for pattern, replacement in patterns: if re.search … break` loop:
try each rule in order, apply the first whose pattern matches. -/
def applyRulesGo : List Rule → List Char → List Char
  | [], line => line
  | (p, r) :: rest, line =>
    if (searchMatch p line).isSome = true then subAll p r line
    else applyRulesGo rest line

/-- Apply the script's ordered rewrite rules to one line. -/
def applyRules (line : List Char) : List Char :=
  applyRulesGo rulesList line

/-! ### The file patcher -/

/-- The filesystem, as a map from full paths to file contents. -/
def FS := List Char → Option (List Char)

/-- Point update of the filesystem (writing one file). -/
def fsUpdate (fs : FS) (p c : List Char) : FS :=
  fun q => if q = p then some c else fs q

/-- The hardcoded project root prefixed to every record's path. -/
def projectRoot : List Char := "/home/mbasim/Documents/components/oc/".toList

/-- `full_path = f"…/oc/{filepath}"`. -/
def resolve (filepath : List Char) : List Char := projectRoot ++ filepath

/-- Python's `readlines`: split keeping the `\n` terminators. -/
def readlines : List Char → List (List Char)
  | [] => []
  | c :: r =>
    if c = '\n' then ['\n'] :: readlines r
    else
      match readlines r with
      | [] => [[c]]
      | h :: t => (c :: h) :: t

/-- Normalized Python list index: negative indices count from the end. -/
def pyNorm (len : Nat) (i : Int) : Int :=
  if i < 0 then (len : Int) + i else i

/-- Python `l[i]`, `none` when the access would raise `IndexError`. -/
def pyGet (l : List α) (i : Int) : Option α :=
  let j := pyNorm l.length i
  if j < 0 then none else l.get? j.toNat

/-- Python `l[i] = a` (the script only assigns after a successful read). -/
def pySet (l : List α) (i : Int) (a : α) : List α :=
  let j := pyNorm l.length i
  if j < 0 then l else l.set j.toNat a

/-- `fix_format_string_in_file`, as a function of the filesystem: returns
the updated filesystem and the boolean success result.  The `none` branch
of `pyGet` is the `IndexError` swallowed by the `except` clause. -/
def fix_format_string_in_file (fs : FS) (filepath : List Char) (line_num : Nat) :
    FS × Bool :=
  match fs (resolve filepath) with
  | none => (fs, false)
  | some content =>
    if (readlines content).length < line_num then (fs, false)
    else
      match pyGet (readlines content) ((line_num : Int) - 1) with
      | none => (fs, false)
      | some original_line =>
        if applyRules original_line = original_line then (fs, false)
        else
          (fsUpdate fs (resolve filepath)
            (pySet (readlines content) ((line_num : Int) - 1)
              (applyRules original_line)).flatten,
           true)

/-- The `main` driver: collect the records (empty on subprocess failure);
if none were found report "no errors" (`none`) and stop; otherwise patch
each record in order and report the fixed/total counts. -/
def mainRun (vetStderr : Option (List Char)) (fs : FS) : FS × Option (Nat × Nat) :=
  let errors := get_format_string_errors vetStderr
  if errors.isEmpty then (fs, none)
  else
    let st := errors.foldl
      (fun (st : FS × Nat) r =>
        let res := fix_format_string_in_file st.1 r.file r.line
        (res.1, if res.2 then st.2 + 1 else st.2))
      (fs, 0)
    (st.1, some (st.2, errors.length))

/-- Decomposition of a diagnostic line that the collector's regex accepts:
file path (nonempty, colon-free), line number digits, column digits, the
fixed diagnostic text, and a nonempty call-site description, with the line
number parsed as a decimal integer. -/
abbrev DiagShapeCore (l f : List Char) (n : Nat) (fn d1 d2 : List Char) : Prop :=
  l = f ++ [':'] ++ d1 ++ [':'] ++ d2 ++ diagLit ++ fn ∧
  f ≠ [] ∧ (∀ c ∈ f, notColon c = true) ∧
  d1 ≠ [] ∧ (∀ c ∈ d1, pyDigit c = true) ∧
  d2 ≠ [] ∧ (∀ c ∈ d2, pyDigit c = true) ∧
  fn ≠ [] ∧ (∀ c ∈ fn, notNl c = true) ∧
  n = natOfDigits d1

/-- A line is of the diagnostic form when it decomposes as above for some
digit strings. -/
abbrev DiagShape (l f : List Char) (n : Nat) (fn : List Char) : Prop :=
  ∃ d1 d2, DiagShapeCore l f n fn d1 d2

/-- The empty filesystem. -/
def fsEmpty : FS := fun _ => none

/-- Fixture: a file whose first line nests `fmt.Sprintf` inside
`fmt.Fprintf`. -/
def fsC2 : FS :=
  fsUpdate fsEmpty (resolve "cmd/b.go".toList)
    "fmt.Fprintf(w, fmt.Sprintf(\"count=%d\", n))\n".toList

/-- Fixture: a file whose first line contains two distinct formatting
calls. -/
def fsC3 : FS :=
  fsUpdate fsEmpty (resolve "cmd/c.go".toList)
    "fmt.Errorf(e) fmt.Fprintf(b, c)\n".toList

/-- Fixture: four files, each holding one canonical already-fixed line. -/
def fsC3a : FS :=
  fsUpdate (fsUpdate (fsUpdate (fsUpdate fsEmpty
    (resolve "f1.go".toList) "fmt.Fprintf(out, \"%s\", msg)\n".toList)
    (resolve "f2.go".toList) "fmt.Errorf(\"%s\", errMsg)\n".toList)
    (resolve "f3.go".toList) "fmt.Fprintf(w, \"count=%d\", n)\n".toList)
    (resolve "f4.go".toList) "util.UsageErrorf(\"%s\", x)\n".toList

/-- Fixture: a file whose first line is an already-correct call with a
literal first format argument. -/
def fsC4 : FS :=
  fsUpdate fsEmpty (resolve "cmd/a.go".toList)
    "fmt.Fprintf(out, \"%s\", msg)\n".toList

/-- Fixture: a two-line file, for the out-of-range error path. -/
def fsC5 : FS :=
  fsUpdate fsEmpty (resolve "cmd/e.go".toList) "a()\nb()\n".toList

/-- Fixture: a one-line file with an offending `fmt.Errorf` call. -/
def fsC9 : FS :=
  fsUpdate fsEmpty (resolve "cmd/d.go".toList) "fmt.Errorf(err)\n".toList

/-- Fixture: a two-line file whose last line is an offending call. -/
def fsC10 : FS :=
  fsUpdate fsEmpty (resolve "cmd/z.go".toList) "foo()\nfmt.Errorf(x)\n".toList

/-! ### List helper lemmas -/

theorem takeWhile_append_all {α : Type} (p : α → Bool) {a : List α} (b : List α)
    (h : ∀ c ∈ a, p c = true) : (a ++ b).takeWhile p = a ++ b.takeWhile p := by
  induction a with
  | nil => simp
  | cons x t ih =>
    have hx : p x = true := h x (List.mem_cons_self x t)
    simp [List.takeWhile_cons, hx,
      ih (fun c hc => h c (List.mem_cons_of_mem x hc))]

theorem dropWhile_append_all {α : Type} (p : α → Bool) {a : List α} (b : List α)
    (h : ∀ c ∈ a, p c = true) : (a ++ b).dropWhile p = b.dropWhile p := by
  induction a with
  | nil => simp
  | cons x t ih =>
    have hx : p x = true := h x (List.mem_cons_self x t)
    simp [List.dropWhile_cons, hx,
      ih (fun c hc => h c (List.mem_cons_of_mem x hc))]

theorem takeWhile_all_eq {α : Type} (p : α → Bool) {a : List α}
    (h : ∀ c ∈ a, p c = true) : a.takeWhile p = a := by
  have h2 := takeWhile_append_all p ([] : List α) h
  simpa using h2

theorem takeWhile_cons_false {α : Type} (p : α → Bool) (x : α) (r : List α)
    (hx : p x = false) : (x :: r).takeWhile p = [] := by
  simp [List.takeWhile_cons, hx]

theorem dropWhile_cons_false {α : Type} (p : α → Bool) (x : α) (r : List α)
    (hx : p x = false) : (x :: r).dropWhile p = x :: r := by
  simp [List.dropWhile_cons, hx]

theorem head_dropWhile_false {α : Type} (p : α → Bool) :
    ∀ (l : List α) {c : α} {t : List α}, l.dropWhile p = c :: t → p c = false := by
  intro l
  induction l with
  | nil => intro c t h; simp at h
  | cons x r ih =>
    intro c t h
    cases hx : p x with
    | true => rw [List.dropWhile_cons, if_pos hx] at h; exact ih h
    | false =>
      rw [List.dropWhile_cons, if_neg (by simp [hx])] at h
      injection h with h1 h2
      rw [← h1]; exact hx

theorem isPrefixOf_self_append (a b : List Char) : a.isPrefixOf (a ++ b) = true := by
  rw [List.isPrefixOf_iff_prefix]; exact List.prefix_append a b

theorem eq_append_drop_of_isPrefixOf {a l : List Char}
    (h : a.isPrefixOf l = true) : l = a ++ l.drop a.length := by
  rw [List.isPrefixOf_iff_prefix] at h
  obtain ⟨t, ht⟩ := h
  rw [← ht, List.drop_left]

theorem containsSub_append (pat A B : List Char) :
    containsSub pat (A ++ (pat ++ B)) = true := by
  unfold containsSub
  rw [List.any_eq_true]
  refine ⟨A.length, List.mem_range.mpr ?_, ?_⟩
  · simp only [List.length_append]
    omega
  · rw [List.drop_left]
    exact isPrefixOf_self_append pat B

theorem notColon_false_iff {c : Char} : notColon c = false ↔ c = ':' := by
  simp [notColon]

theorem notNl_false_iff {c : Char} : notNl c = false ↔ c = '\n' := by
  simp [notNl]

theorem diagLit_cons :
    diagLit = ':' :: " non-constant format string in call to ".toList := by decide

theorem diagLit_split :
    diagLit = ": ".toList ++ (needle ++ " in call to ".toList) := by decide

/-- Any accepted line decomposes into the diagnostic shape, possibly
followed by a `\n`-headed tail that `re.match`'s prefix semantics
ignores. -/
theorem parseDiagLine_some_decomp {l f : List Char} {n : Nat} {fn : List Char}
    (h : parseDiagLine l = some (f, n, fn)) :
    ∃ d1 d2 tail,
      l = f ++ [':'] ++ d1 ++ [':'] ++ d2 ++ diagLit ++ fn ++ tail ∧
      f ≠ [] ∧ (∀ c ∈ f, notColon c = true) ∧
      d1 ≠ [] ∧ (∀ c ∈ d1, pyDigit c = true) ∧
      d2 ≠ [] ∧ (∀ c ∈ d2, pyDigit c = true) ∧
      fn ≠ [] ∧ (∀ c ∈ fn, notNl c = true) ∧
      (tail = [] ∨ ∃ t, tail = '\n' :: t) ∧
      n = natOfDigits d1 := by
  unfold parseDiagLine at h
  by_cases h1 : l.takeWhile notColon = []
  · rw [if_pos h1] at h; exact absurd h (by simp)
  · rw [if_neg h1] at h
    cases hdw1 : l.dropWhile notColon with
    | nil => rw [hdw1] at h; exact absurd h (by simp)
    | cons c1 r2 =>
      rw [hdw1] at h
      dsimp only at h
      by_cases h2 : r2.takeWhile pyDigit = []
      · rw [if_pos h2] at h; exact absurd h (by simp)
      · rw [if_neg h2] at h
        cases hdw2 : r2.dropWhile pyDigit with
        | nil => rw [hdw2] at h; exact absurd h (by simp)
        | cons c2 r3 =>
          rw [hdw2] at h
          dsimp only at h
          by_cases hc2 : c2 = ':'
          · rw [if_pos hc2] at h
            by_cases h3 : r3.takeWhile pyDigit = []
            · rw [if_pos h3] at h; exact absurd h (by simp)
            · rw [if_neg h3] at h
              by_cases hpre : diagLit.isPrefixOf (r3.dropWhile pyDigit) = true
              · rw [if_pos hpre] at h
                by_cases h4 :
                    ((r3.dropWhile pyDigit).drop diagLit.length).takeWhile notNl = []
                · rw [if_pos h4] at h; exact absurd h (by simp)
                · rw [if_neg h4] at h
                  injection h with h5
                  rw [Prod.mk.injEq] at h5
                  obtain ⟨hf, h6⟩ := h5
                  rw [Prod.mk.injEq] at h6
                  obtain ⟨hn, hfn⟩ := h6
                  have hc1 : c1 = ':' :=
                    notColon_false_iff.mp (head_dropWhile_false notColon l hdw1)
                  subst hc1; subst hc2
                  refine ⟨r2.takeWhile pyDigit, r3.takeWhile pyDigit,
                    ((r3.dropWhile pyDigit).drop diagLit.length).dropWhile notNl,
                    ?_, ?_, ?_, h2, ?_, h3, ?_, ?_, ?_, ?_, hn.symm⟩
                  · rw [← hf, ← hfn]
                    have hl : l = l.takeWhile notColon ++ (':' :: r2) := by
                      rw [← hdw1, List.takeWhile_append_dropWhile]
                    have hr2 : r2 = r2.takeWhile pyDigit ++ (':' :: r3) := by
                      rw [← hdw2, List.takeWhile_append_dropWhile]
                    have hr3 : r3 = r3.takeWhile pyDigit ++ r3.dropWhile pyDigit :=
                      (List.takeWhile_append_dropWhile pyDigit r3).symm
                    have hr4 : r3.dropWhile pyDigit =
                        diagLit ++ ((r3.dropWhile pyDigit).drop diagLit.length) :=
                      eq_append_drop_of_isPrefixOf hpre
                    have hrest : (r3.dropWhile pyDigit).drop diagLit.length =
                        ((r3.dropWhile pyDigit).drop diagLit.length).takeWhile notNl ++
                        ((r3.dropWhile pyDigit).drop diagLit.length).dropWhile notNl :=
                      (List.takeWhile_append_dropWhile notNl _).symm
                    conv_lhs => rw [hl, hr2, hr3, hr4, hrest]
                    simp [List.append_assoc]
                  · rw [← hf]; exact h1
                  · rw [← hf]; intro c hc; exact List.mem_takeWhile_imp hc
                  · intro c hc; exact List.mem_takeWhile_imp hc
                  · intro c hc; exact List.mem_takeWhile_imp hc
                  · rw [← hfn]; exact h4
                  · rw [← hfn]; intro c hc; exact List.mem_takeWhile_imp hc
                  · cases htl :
                      ((r3.dropWhile pyDigit).drop diagLit.length).dropWhile notNl with
                    | nil => exact Or.inl rfl
                    | cons ct tt =>
                      refine Or.inr ⟨tt, ?_⟩
                      have : notNl ct = false := head_dropWhile_false notNl _ htl
                      rw [notNl_false_iff.mp this]
              · rw [if_neg hpre] at h; exact absurd h (by simp)
          · rw [if_neg hc2] at h; exact absurd h (by simp)

/-- A line of the diagnostic shape is accepted with exactly its
components. -/
theorem parseDiagLine_of_shape {l f : List Char} {n : Nat} {fn d1 d2 : List Char}
    (hc : DiagShapeCore l f n fn d1 d2) : parseDiagLine l = some (f, n, fn) := by
  obtain ⟨hl, hf, hfc, hd1, hd1d, hd2, hd2d, hfn, hfnn, hn⟩ := hc
  have hl2 : l = f ++ (':' :: (d1 ++ (':' :: (d2 ++ (diagLit ++ fn))))) := by
    rw [hl]; simp [List.append_assoc]
  have hdltail : diagLit ++ fn =
      ':' :: (" non-constant format string in call to ".toList ++ fn) := by
    rw [diagLit_cons, List.cons_append]
  have htw1 : l.takeWhile notColon = f := by
    rw [hl2, takeWhile_append_all notColon _ hfc,
      takeWhile_cons_false notColon ':' _ (by decide), List.append_nil]
  have hdw1 : l.dropWhile notColon =
      ':' :: (d1 ++ (':' :: (d2 ++ (diagLit ++ fn)))) := by
    rw [hl2, dropWhile_append_all notColon _ hfc,
      dropWhile_cons_false notColon ':' _ (by decide)]
  have htwd1 : (d1 ++ (':' :: (d2 ++ (diagLit ++ fn)))).takeWhile pyDigit = d1 := by
    rw [takeWhile_append_all pyDigit _ hd1d,
      takeWhile_cons_false pyDigit ':' _ (by decide), List.append_nil]
  have hdwd1 : (d1 ++ (':' :: (d2 ++ (diagLit ++ fn)))).dropWhile pyDigit =
      ':' :: (d2 ++ (diagLit ++ fn)) := by
    rw [dropWhile_append_all pyDigit _ hd1d,
      dropWhile_cons_false pyDigit ':' _ (by decide)]
  have htwd2 : (d2 ++ (diagLit ++ fn)).takeWhile pyDigit = d2 := by
    rw [takeWhile_append_all pyDigit _ hd2d, hdltail,
      takeWhile_cons_false pyDigit ':' _ (by decide), List.append_nil]
  have hdwd2 : (d2 ++ (diagLit ++ fn)).dropWhile pyDigit = diagLit ++ fn := by
    rw [dropWhile_append_all pyDigit _ hd2d, hdltail,
      dropWhile_cons_false pyDigit ':' _ (by decide)]
  unfold parseDiagLine
  rw [htw1, hdw1]
  rw [if_neg hf]
  dsimp only
  rw [htwd1, if_neg hd1, hdwd1]
  dsimp only
  rw [if_pos rfl, htwd2, if_neg hd2, hdwd2,
    if_pos (isPrefixOf_self_append diagLit fn), List.drop_left,
    takeWhile_all_eq notNl hfnn, if_neg hfn, hn]

/-- Any accepted line contains the needle the script greps for, so the
pre-filter never drops an accepted line. -/
theorem contains_of_parse_some {l : List Char} {r : List Char × Nat × List Char}
    (h : parseDiagLine l = some r) : containsSub needle l = true := by
  obtain ⟨f, n, fn⟩ := r
  obtain ⟨d1, d2, tail, hl, -, -, -, -, -, -, -, -, -, -⟩ :=
    parseDiagLine_some_decomp h
  rw [hl, diagLit_split]
  have hassoc :
      f ++ [':'] ++ d1 ++ [':'] ++ d2 ++
          (": ".toList ++ (needle ++ " in call to ".toList)) ++ fn ++ tail =
        (f ++ [':'] ++ d1 ++ [':'] ++ d2 ++ ": ".toList) ++
          (needle ++ (" in call to ".toList ++ (fn ++ tail))) := by
    simp [List.append_assoc]
  rw [hassoc]
  exact containsSub_append needle _ _

/-! ### Claim theorems -/

/-- C1: on newline-free lines (as produced by splitting the captured
stderr, third conjunct) the collector's parse accepts exactly the lines of
the diagnostic form `file:line:col: non-constant format string in call to
fn` and extracts exactly the file, the line number parsed as an integer,
and the call-site text (first conjunct, an iff); and the collector emits
exactly one record per accepted line and none for any other line — the
needle pre-filter never drops an accepted line (second conjunct).  The
parse is a total function, so parsing never raises. -/
theorem collector_parses_exactly_matching_lines :
    (∀ (l f : List Char) (n : Nat) (fn : List Char),
      (∀ c ∈ l, notNl c = true) →
      (parseDiagLine l = some (f, n, fn) ↔ DiagShape l f n fn)) ∧
    (∀ stderr : List Char,
      collectFromStderr stderr
        = (splitOnNl stderr).filterMap (fun l => (parseDiagLine l).map recOf)) ∧
    (∀ (stderr l : List Char), l ∈ splitOnNl stderr → ∀ c ∈ l, notNl c = true) := by
  refine ⟨?_, ?_, ?_⟩
  · intro l f n fn hnl
    constructor
    · intro h
      obtain ⟨d1, d2, tail, hl, hf, hfc, hd1, hd1d, hd2, hd2d, hfn, hfnn, htail, hn⟩ :=
        parseDiagLine_some_decomp h
      have htail0 : tail = [] := by
        cases htail with
        | inl h0 => exact h0
        | inr h1 =>
          obtain ⟨t, ht⟩ := h1
          exfalso
          have hmem : '\n' ∈ l := by
            rw [hl, ht]; simp
          have hcon := hnl '\n' hmem
          simp [notNl] at hcon
      refine ⟨d1, d2, ?_, hf, hfc, hd1, hd1d, hd2, hd2d, hfn, hfnn, hn⟩
      rw [hl, htail0, List.append_nil]
    · intro hs
      obtain ⟨d1, d2, hcore⟩ := hs
      exact parseDiagLine_of_shape hcore
  · intro stderr
    unfold collectFromStderr
    apply List.filterMap_congr
    intro x hx
    by_cases hc : containsSub needle x = true
    · rw [if_pos hc]
    · rw [if_neg hc]
      cases hp : parseDiagLine x with
      | none => rfl
      | some r => exact absurd (contains_of_parse_some hp) hc
  · intro stderr
    induction stderr with
    | nil =>
      intro l hl c hc
      simp [splitOnNl] at hl
      rw [hl] at hc
      simp at hc
    | cons x r ih =>
      intro l hl c hc
      by_cases hx : x = '\n'
      · rw [show splitOnNl (x :: r) = [] :: splitOnNl r by
          rw [splitOnNl, if_pos hx]] at hl
        cases hl with
        | head => simp at hc
        | tail _ hmem => exact ih l hmem c hc
      · rw [show splitOnNl (x :: r) =
            (match splitOnNl r with
             | [] => [[x]]
             | h :: t => (x :: h) :: t) by rw [splitOnNl, if_neg hx]] at hl
        cases hsp : splitOnNl r with
        | nil =>
          rw [hsp] at hl
          dsimp only at hl
          have hlx : l = [x] := by
            cases hl with
            | head => rfl
            | tail _ hmem => cases hmem
          rw [hlx] at hc
          have hcx : c = x := by
            cases hc with
            | head => rfl
            | tail _ hmem => cases hmem
          rw [hcx]
          simp [notNl, hx]
        | cons h0 t0 =>
          rw [hsp] at hl
          dsimp only at hl
          cases hl with
          | head =>
            cases hc with
            | head => simp [notNl, hx]
            | tail _ hmem =>
              exact ih h0 (by rw [hsp]; exact List.mem_cons_self h0 t0) c hmem
          | tail _ hmem =>
            exact ih l (by rw [hsp]; exact List.mem_cons_of_mem h0 hmem) c hc

/-- Witness for C1: a concrete well-formed diagnostic line parses to
exactly its components. -/
theorem collector_parses_exactly_matching_lines_witness :
    parseDiagLine
        "pkg/cli/login.go:102:9: non-constant format string in call to fmt.Errorf".toList
      = some ("pkg/cli/login.go".toList, 102, "fmt.Errorf".toList) :=
  (collector_parses_exactly_matching_lines.1
      "pkg/cli/login.go:102:9: non-constant format string in call to fmt.Errorf".toList
      "pkg/cli/login.go".toList 102 "fmt.Errorf".toList (by decide)).mpr
    ⟨"102".toList, "9".toList, by decide⟩

/-- C2: applied to a record whose target line is
`fmt.Fprintf(w, fmt.Sprintf("count=%d", n))`, the Patcher rewrites it to
`fmt.Fprintf(w, "count=%d", n)` — the nested `fmt.Sprintf` is unwrapped and
its arguments passed directly to the outer call — returns success, and the
file now holds the rewritten line. -/
theorem patcher_unwraps_fprintf_of_sprintf :
    applyRules "fmt.Fprintf(w, fmt.Sprintf(\"count=%d\", n))".toList
      = "fmt.Fprintf(w, \"count=%d\", n)".toList ∧
    (fix_format_string_in_file fsC2 "cmd/b.go".toList 1).2 = true ∧
    (fix_format_string_in_file fsC2 "cmd/b.go".toList 1).1 (resolve "cmd/b.go".toList)
      = some "fmt.Fprintf(w, \"count=%d\", n)\n".toList := by
  refine ⟨by decide, by decide, by decide⟩

/-- C3 counterexample: on the line `fmt.Errorf(e) fmt.Fprintf(b, c)` the
first Patcher application succeeds (rule 1 fixes the `fmt.Fprintf` call),
but a second application is not a no-op: rule 2 now matches the untouched
`fmt.Errorf` call, the Patcher returns success again and modifies the file
again. -/
theorem second_patch_rewrites_multicall_line :
    applyRules "fmt.Errorf(e) fmt.Fprintf(b, c)".toList
      ≠ "fmt.Errorf(e) fmt.Fprintf(b, c)".toList ∧
    applyRules (applyRules "fmt.Errorf(e) fmt.Fprintf(b, c)".toList)
      ≠ applyRules "fmt.Errorf(e) fmt.Fprintf(b, c)".toList ∧
    (fix_format_string_in_file fsC3 "cmd/c.go".toList 1).2 = true ∧
    (fix_format_string_in_file
      (fix_format_string_in_file fsC3 "cmd/c.go".toList 1).1 "cmd/c.go".toList 1).2
      = true ∧
    (fix_format_string_in_file
      (fix_format_string_in_file fsC3 "cmd/c.go".toList 1).1 "cmd/c.go".toList 1).1
        (resolve "cmd/c.go".toList)
      ≠ (fix_format_string_in_file fsC3 "cmd/c.go".toList 1).1
        (resolve "cmd/c.go".toList) := by
  refine ⟨by decide, by decide, by decide, by decide, by decide⟩

/-- C3 amended: for the canonical fixed lines — the Patcher's outputs on
the spec's four end-to-end examples, each a line whose sole formatting call
was rewritten — a second application is a no-op: no rewrite rule matches
the rewritten line, the Patcher returns failure, and the file is not
modified again. -/
theorem second_patch_noop_on_canonical_fixed_lines :
    (applyRules "fmt.Fprintf(out, msg)".toList = "fmt.Fprintf(out, \"%s\", msg)".toList ∧
      (rulesList.all fun r =>
        (searchMatch r.1 "fmt.Fprintf(out, \"%s\", msg)".toList).isNone) = true ∧
      fix_format_string_in_file fsC3a "f1.go".toList 1 = (fsC3a, false)) ∧
    (applyRules "fmt.Errorf(errMsg)".toList = "fmt.Errorf(\"%s\", errMsg)".toList ∧
      (rulesList.all fun r =>
        (searchMatch r.1 "fmt.Errorf(\"%s\", errMsg)".toList).isNone) = true ∧
      fix_format_string_in_file fsC3a "f2.go".toList 1 = (fsC3a, false)) ∧
    (applyRules "fmt.Fprintf(w, fmt.Sprintf(\"count=%d\", n))".toList
        = "fmt.Fprintf(w, \"count=%d\", n)".toList ∧
      (rulesList.all fun r =>
        (searchMatch r.1 "fmt.Fprintf(w, \"count=%d\", n)".toList).isNone) = true ∧
      fix_format_string_in_file fsC3a "f3.go".toList 1 = (fsC3a, false)) ∧
    (applyRules "util.UsageErrorf(x)".toList = "util.UsageErrorf(\"%s\", x)".toList ∧
      (rulesList.all fun r =>
        (searchMatch r.1 "util.UsageErrorf(\"%s\", x)".toList).isNone) = true ∧
      fix_format_string_in_file fsC3a "f4.go".toList 1 = (fsC3a, false)) := by
  refine ⟨⟨by decide, by decide, rfl⟩, ⟨by decide, by decide, rfl⟩,
    ⟨by decide, by decide, rfl⟩, ⟨by decide, by decide, rfl⟩⟩

/-- C4: on the already-correct line `fmt.Fprintf(out, "%s", msg)` no
rewrite rule's pattern matches, the Patcher returns failure, and the
filesystem is unchanged. -/
theorem no_rule_matches_literal_format_call :
    searchMatch P1 "fmt.Fprintf(out, \"%s\", msg)".toList = none ∧
    searchMatch P2 "fmt.Fprintf(out, \"%s\", msg)".toList = none ∧
    searchMatch P3 "fmt.Fprintf(out, \"%s\", msg)".toList = none ∧
    searchMatch P4 "fmt.Fprintf(out, \"%s\", msg)".toList = none ∧
    fix_format_string_in_file fsC4 "cmd/a.go".toList 1 = (fsC4, false) := by
  refine ⟨by decide, by decide, by decide, by decide, rfl⟩

/-- C7 counterexample: the first rule does fire on a two-argument call
whose second argument is a string literal (`fmt.Fprintf(out, "done")`), and
the second rule fires on a one-argument call whose sole argument is a
string literal (`fmt.Errorf("boom")`): the regexes test only for the
absence of commas and closing parentheses, not for literal-ness. -/
theorem rule_fires_on_string_literal_argument :
    (searchMatch P1 "fmt.Fprintf(out, \"done\")".toList).isSome = true ∧
    applyRules "fmt.Fprintf(out, \"done\")".toList
      = "fmt.Fprintf(out, \"%s\", \"done\")".toList ∧
    (searchMatch P2 "fmt.Errorf(\"boom\")".toList).isSome = true ∧
    applyRules "fmt.Errorf(\"boom\")".toList
      = "fmt.Errorf(\"%s\", \"boom\")".toList := by
  refine ⟨by decide, by decide, by decide, by decide⟩

/-- C7 amended: the first rule fires on two-argument calls whose second
argument contains no comma and no closing parenthesis, and the second rule
on one-argument error calls under the same textual condition — whether or
not that argument is a string literal.  In particular both fire on bare
non-literal arguments, both fire on comma-free string literals, and
neither fires on `fmt.Fprintf(out, "%s", msg)` / `fmt.Errorf("%s", errMsg)`
— excluded by the comma after the literal, not by literal-ness. -/
theorem rules_fire_on_comma_free_argument_shape :
    applyRules "fmt.Fprintf(out, msg)".toList = "fmt.Fprintf(out, \"%s\", msg)".toList ∧
    applyRules "fmt.Errorf(errMsg)".toList = "fmt.Errorf(\"%s\", errMsg)".toList ∧
    applyRules "fmt.Fprintf(out, \"done\")".toList
      = "fmt.Fprintf(out, \"%s\", \"done\")".toList ∧
    applyRules "fmt.Errorf(\"boom\")".toList = "fmt.Errorf(\"%s\", \"boom\")".toList ∧
    searchMatch P1 "fmt.Fprintf(out, \"%s\", msg)".toList = none ∧
    searchMatch P2 "fmt.Errorf(\"%s\", errMsg)".toList = none := by
  refine ⟨by decide, by decide, by decide, by decide, by decide, by decide⟩

/-- C8: when the analyzer subprocess invocation fails (the `except` branch
of `get_format_string_errors`), the collector returns the empty record
list, and the driver takes the "no errors found" path without touching the
filesystem. -/
theorem subprocess_failure_gives_empty_records :
    get_format_string_errors none = [] ∧
    ∀ fs : FS, mainRun none fs = (fs, none) := by
  exact ⟨rfl, fun fs => rfl⟩

/-! ### Helper lemmas -/

/-- A successful Python read at index `i` means the normalized index is in
range, and a Python write at the same index is `List.set` there. -/
theorem pySet_eq_set_of_pyGet_some {α : Type} {l : List α} {i : Int} {a : α}
    (b : α) (h : pyGet l i = some a) :
    pySet l i b = l.set (pyNorm l.length i).toNat b := by
  by_cases hj : pyNorm l.length i < 0
  · simp [pyGet, hj] at h
  · simp [pySet, hj]

/-- First-match-wins for an arbitrary ordered rule list. -/
theorem applyRulesGo_first :
    ∀ (rs : List Rule) (line : List Char) (i : Nat) (p : List RItem)
      (r : List (List Char) → List Char),
      rs.get? i = some (p, r) →
      (∀ j q s, j < i → rs.get? j = some (q, s) → searchMatch q line = none) →
      (searchMatch p line).isSome = true →
      applyRulesGo rs line = subAll p r line := by
  intro rs
  induction rs with
  | nil => intro line i p r h; simp at h
  | cons hd tl ih =>
    intro line i p r hget hnone hsome
    obtain ⟨q0, s0⟩ := hd
    cases i with
    | zero =>
      rw [show (((q0, s0) :: tl).get? 0) = some (q0, s0) from rfl] at hget
      injection hget with hpr
      rw [Prod.mk.injEq] at hpr
      obtain ⟨hq, hs⟩ := hpr
      show applyRulesGo ((q0, s0) :: tl) line = subAll p r line
      unfold applyRulesGo
      rw [hq, hs, if_pos hsome]
    | succ i' =>
      have h0 : searchMatch q0 line = none :=
        hnone 0 q0 s0 (Nat.succ_pos _) rfl
      show applyRulesGo ((q0, s0) :: tl) line = subAll p r line
      unfold applyRulesGo
      rw [if_neg (by rw [h0]; simp)]
      exact ih line i' p r hget
        (fun j q s hj hg => hnone (j + 1) q s (Nat.succ_lt_succ hj) hg) hsome

/-! ### Claim theorems (structural) -/

/-- C5: per-record error paths are atomic.  If the record's file is absent
under the project root the Patcher returns failure with the filesystem
untouched (no file created); if the record's line number exceeds the
file's line count it returns failure and the file is byte-for-byte
unchanged. -/
theorem patcher_error_paths_leave_fs_unchanged :
    ∀ (fs : FS) (p : List Char) (n : Nat),
      (fs (resolve p) = none → fix_format_string_in_file fs p n = (fs, false)) ∧
      (∀ content, fs (resolve p) = some content →
        (readlines content).length < n →
        fix_format_string_in_file fs p n = (fs, false)) := by
  intro fs p n
  constructor
  · intro h
    simp only [fix_format_string_in_file, h]
  · intro content h hlen
    simp only [fix_format_string_in_file, h]
    rw [if_pos hlen]

/-- Witness for C5: on a concrete two-line file, a missing path and an
out-of-range line number both fail and leave the filesystem unchanged. -/
theorem patcher_error_paths_leave_fs_unchanged_witness :
    fix_format_string_in_file fsC5 "missing.go".toList 1 = (fsC5, false) ∧
    fix_format_string_in_file fsC5 "cmd/e.go".toList 5 = (fsC5, false) :=
  ⟨(patcher_error_paths_leave_fs_unchanged fsC5 "missing.go".toList 1).1 rfl,
   (patcher_error_paths_leave_fs_unchanged fsC5 "cmd/e.go".toList 5).2
     "a()\nb()\n".toList rfl (by decide)⟩

/-- C6: the four rewrite rules are tried in the fixed order
`(P1, R1), (P2, R2), (P3, R3), (P4, R4)` with first-match-wins: whenever
rule `i` matches and no earlier rule matches, the applied rewrite is
exactly rule `i`'s substitution — no later rule's replacement is
performed, even if a later rule's pattern also matches the line. -/
theorem rules_tried_in_order_first_match_wins :
    ∀ (line : List Char) (i : Nat) (p : List RItem)
      (r : List (List Char) → List Char),
      rulesList.get? i = some (p, r) →
      (∀ j q s, j < i → rulesList.get? j = some (q, s) →
        searchMatch q line = none) →
      (searchMatch p line).isSome = true →
      applyRules line = subAll p r line := by
  intro line i p r hget hnone hsome
  exact applyRulesGo_first rulesList line i p r hget hnone hsome

/-- Witness for C6: `fmt.Errorf(err)` matches rule 2 but not rule 1, so
the applied rewrite is rule 2's substitution. -/
theorem rules_tried_in_order_first_match_wins_witness :
    applyRules "fmt.Errorf(err)".toList
      = subAll P2 R2 "fmt.Errorf(err)".toList := by
  refine rules_tried_in_order_first_match_wins "fmt.Errorf(err)".toList 1 P2 R2
    rfl ?_ (by decide)
  intro j q s hj hg
  have hj0 : j = 0 := by omega
  subst hj0
  rw [show rulesList.get? 0 = some (P1, R1) from rfl] at hg
  injection hg with hpr
  rw [Prod.mk.injEq] at hpr
  obtain ⟨hq, _⟩ := hpr
  rw [← hq]
  decide

/-- C10: the Patcher's range check rejects only line numbers strictly
greater than the line count, so a record with line number 0 on a nonempty
file is not rejected: via Python's negative indexing the Patcher reads
(and, when a rule matches, rewrites) the last line of the file.  Such a
record is producible: the collector's line-number pattern accepts the
digit string "0". -/
theorem line_zero_patches_last_line_via_negative_index :
    (∀ (l : List (List Char)) (h : l ≠ []), pyGet l (-1) = some (l.getLast h)) ∧
    (∀ (fs : FS) (p content orig : List Char),
      fs (resolve p) = some content →
      pyGet (readlines content) (-1) = some orig →
      fix_format_string_in_file fs p 0 =
        (if applyRules orig = orig then (fs, false)
         else (fsUpdate fs (resolve p)
           (pySet (readlines content) (-1) (applyRules orig)).flatten, true))) ∧
    parseDiagLine
        "pkg/a.go:0:7: non-constant format string in call to fmt.Errorf".toList
      = some ("pkg/a.go".toList, 0, "fmt.Errorf".toList) := by
  refine ⟨?_, ?_, by decide⟩
  · intro l h
    have hlen : 1 ≤ l.length := by
      cases l with
      | nil => exact absurd rfl h
      | cons a t => exact Nat.succ_le_succ (Nat.zero_le _)
    have hnorm : pyNorm l.length (-1) = (l.length : Int) - 1 := by
      unfold pyNorm
      rw [if_pos (by omega)]
      ring
    have hnneg : ¬ ((l.length : Int) - 1 < 0) := by omega
    unfold pyGet
    rw [hnorm]
    rw [if_neg hnneg]
    have htn : ((l.length : Int) - 1).toNat = l.length - 1 := by omega
    rw [htn, List.get?_eq_getElem?, ← List.getLast?_eq_getElem?,
      List.getLast?_eq_getLast_of_ne_nil h]
  · intro fs p content orig h hget
    simp only [fix_format_string_in_file, h, Nat.cast_zero, zero_sub, hget,
      Nat.not_lt_zero, if_false]

/-- Witness for C10: on a concrete two-line file, a record with line
number 0 reads the last line and rewrites it in place. -/
theorem line_zero_patches_last_line_via_negative_index_witness :
    pyGet ["foo()\n".toList, "fmt.Errorf(x)\n".toList] (-1)
      = some ("fmt.Errorf(x)\n".toList) ∧
    fix_format_string_in_file fsC10 "cmd/z.go".toList 0 =
      (if applyRules ("fmt.Errorf(x)\n".toList) = "fmt.Errorf(x)\n".toList
       then (fsC10, false)
       else (fsUpdate fsC10 (resolve "cmd/z.go".toList)
         (pySet (readlines "foo()\nfmt.Errorf(x)\n".toList) (-1)
           (applyRules "fmt.Errorf(x)\n".toList)).flatten, true)) :=
  ⟨line_zero_patches_last_line_via_negative_index.1
     ["foo()\n".toList, "fmt.Errorf(x)\n".toList] (by decide),
   line_zero_patches_last_line_via_negative_index.2.1 fsC10 "cmd/z.go".toList
     "foo()\nfmt.Errorf(x)\n".toList "fmt.Errorf(x)\n".toList rfl (by decide)⟩

/-- C9: every successful patch only replaces the record's target line:
the rewritten file is the flattened line list with exactly the normalized
index of `record.line - 1` replaced, every other line (with its line
ending) is unchanged, and every other file of the filesystem is
unchanged. -/
theorem successful_patch_modifies_only_target_line :
    ∀ (fs : FS) (p : List Char) (n : Nat) (fs' : FS),
      fix_format_string_in_file fs p n = (fs', true) →
      ∃ content orig,
        fs (resolve p) = some content ∧
        pyGet (readlines content) ((n : Int) - 1) = some orig ∧
        applyRules orig ≠ orig ∧
        fs' = fsUpdate fs (resolve p)
          (((readlines content).set
            ((pyNorm (readlines content).length ((n : Int) - 1)).toNat)
            (applyRules orig)).flatten) ∧
        (∀ i, i ≠ (pyNorm (readlines content).length ((n : Int) - 1)).toNat →
          ((readlines content).set
            ((pyNorm (readlines content).length ((n : Int) - 1)).toNat)
            (applyRules orig)).get? i = (readlines content).get? i) ∧
        (∀ q, q ≠ resolve p → fs' q = fs q) := by
  intro fs p n fs' h
  unfold fix_format_string_in_file at h
  cases hfs : fs (resolve p) with
  | none =>
    rw [hfs] at h
    simp at h
  | some content =>
    rw [hfs] at h
    dsimp only at h
    by_cases hlen : (readlines content).length < n
    · rw [if_pos hlen] at h
      simp at h
    · rw [if_neg hlen] at h
      cases hget : pyGet (readlines content) ((n : Int) - 1) with
      | none =>
        rw [hget] at h
        simp at h
      | some orig =>
        rw [hget] at h
        dsimp only at h
        by_cases heq : applyRules orig = orig
        · rw [if_pos heq] at h
          simp at h
        · rw [if_neg heq] at h
          rw [Prod.mk.injEq] at h
          obtain ⟨hfs', -⟩ := h
          refine ⟨content, orig, rfl, hget, heq, ?_, ?_, ?_⟩
          · rw [← hfs',
              pySet_eq_set_of_pyGet_some (applyRules orig) hget]
          · intro i hi
            rw [List.get?_eq_getElem?, List.get?_eq_getElem?]
            exact List.getElem?_set_ne (fun hcon => hi hcon.symm)
          · intro q hq
            rw [← hfs']
            unfold fsUpdate
            rw [if_neg hq]

/-- Witness for C9: the frame property instantiated on a concrete one-line
file whose line gets rewritten. -/
theorem successful_patch_modifies_only_target_line_witness :
    ∃ content orig,
      fsC9 (resolve "cmd/d.go".toList) = some content ∧
      pyGet (readlines content) (((1 : Nat) : Int) - 1) = some orig ∧
      applyRules orig ≠ orig ∧
      (fix_format_string_in_file fsC9 "cmd/d.go".toList 1).1
        = fsUpdate fsC9 (resolve "cmd/d.go".toList)
          (((readlines content).set
            ((pyNorm (readlines content).length (((1 : Nat) : Int) - 1)).toNat)
            (applyRules orig)).flatten) ∧
      (∀ i, i ≠ (pyNorm (readlines content).length (((1 : Nat) : Int) - 1)).toNat →
        ((readlines content).set
          ((pyNorm (readlines content).length (((1 : Nat) : Int) - 1)).toNat)
          (applyRules orig)).get? i = (readlines content).get? i) ∧
      (∀ q, q ≠ resolve "cmd/d.go".toList →
        (fix_format_string_in_file fsC9 "cmd/d.go".toList 1).1 q = fsC9 q) :=
  successful_patch_modifies_only_target_line fsC9 "cmd/d.go".toList 1
    (fix_format_string_in_file fsC9 "cmd/d.go".toList 1).1 rfl

end FixFormatStrings
